import Mathlib

/-!
Verification development for the "stab" tab-management extension core
(`src/background.js`).  The stateful listeners and policy checks of the
source are embedded as pure Lean functions: browser tabs become the `Tab`
structure, `chrome.storage` objects become association lists, timestamps
are epoch milliseconds as `Int`, and JavaScript float accumulators
(`dwellMs / 1000`) become `Rat`.  Host calls (`chrome.tabs.remove`,
grouping, the categorization service) are modelled by explicit outcome
parameters, so that each claim about the code's behaviour can be stated
and settled as a theorem.
-/

namespace Stab

/-- Association list lookup, first binding wins (models JavaScript
`Map.get` / object property access keyed by the stringified key). -/
def aget {α β : Type} [DecidableEq α] : List (α × β) → α → Option β
  | [], _ => none
  | (k2, v) :: rest, k => if k = k2 then some v else aget rest k

/-- Association list update, in place when the key is present, appended
otherwise (models `Map.set` / object property assignment, which keep
insertion order). -/
def aset {α β : Type} [DecidableEq α] : List (α × β) → α → β → List (α × β)
  | [], k, v => [(k, v)]
  | (k2, v2) :: rest, k, v =>
    if k = k2 then (k, v) :: rest else (k2, v2) :: aset rest k v

theorem aget_aset_self {α β : Type} [DecidableEq α] (l : List (α × β)) (k : α) (v : β) :
    aget (aset l k v) k = some v := by
  induction l with
  | nil => simp [aget, aset]
  | cons hd tl ih =>
    obtain ⟨k2, v2⟩ := hd
    by_cases h : k = k2 <;> simp [aget, aset, h, ih]

theorem aget_aset_ne {α β : Type} [DecidableEq α] (l : List (α × β)) (k k2 : α) (v : β)
    (h : k2 ≠ k) : aget (aset l k v) k2 = aget l k2 := by
  induction l with
  | nil => simp [aget, aset, h]
  | cons hd tl ih =>
    obtain ⟨k3, v3⟩ := hd
    by_cases h2 : k = k3
    · subst h2
      simp [aget, aset, h]
    · by_cases h3 : k2 = k3 <;> simp [aget, aset, h2, h3, ih]

theorem aset_of_aget_eq {α β : Type} [DecidableEq α] (l : List (α × β)) (k : α) (v : β)
    (h : aget l k = some v) : aset l k v = l := by
  induction l with
  | nil => simp [aget] at h
  | cons hd tl ih =>
    obtain ⟨k2, v2⟩ := hd
    by_cases h2 : k = k2
    · subst h2
      simp [aget] at h
      simp [aset, h]
    · simp [aget, h2] at h
      simp [aset, h2, ih h]

/-- A browser tab as surfaced by `chrome.tabs.query` (the fields the core
reads: `id`, `url`, `title`, `pinned`, `active`). -/
structure Tab where
  id : Nat
  url : String
  title : String
  pinned : Bool
  active : Bool
deriving DecidableEq, Repr

/-- One `tabEngagement` record: `{ totalSeconds, visits }`
(`background.js` line 297). `totalSeconds` accumulates `dwellMs / 1000`,
a float in the source, modelled as `Rat`. -/
structure Engagement where
  totalSeconds : Rat
  visits : Nat
deriving DecidableEq, Repr

/-- One `tabRelationships` record: `{ count, totalDwellSeconds }`
(`background.js` line 309). -/
structure RelData where
  count : Nat
  totalDwellSeconds : Rat
deriving DecidableEq, Repr

/-- The mutable state read and written by the `chrome.tabs.onActivated`
listener (`background.js` lines 99-121): the activity map, the previous
focus marker, and the two persisted stores. -/
structure TrackerState where
  tabActivity : List (Nat × Int)
  previousTabId : Option Nat
  previousTabStart : Option Int
  tabEngagement : List (Nat × Engagement)
  tabRelationships : List ((Nat × Nat) × RelData)
deriving DecidableEq, Repr

/-- The initial tracker state: empty stores, no previous focus
(`background.js` lines 2-6). -/
def trackerInit : TrackerState := ⟨[], none, none, [], []⟩

/-- `MIN_DWELL_MS` (`background.js` line 7). -/
def MIN_DWELL_MS : Int := 3000

/-- `updateEngagement(tabId, dwellMs)` (`background.js` lines 293-302):
read-or-default the record, add `dwellMs / 1000` seconds, bump visits. -/
def updateEngagement (tabEngagement : List (Nat × Engagement)) (tabId : Nat)
    (dwellMs : Int) : List (Nat × Engagement) :=
  let cur := (aget tabEngagement tabId).getD ⟨0, 0⟩
  aset tabEngagement tabId ⟨cur.totalSeconds + (dwellMs : Rat) / 1000, cur.visits + 1⟩

/-- The canonical unordered-pair key `[fromId, toId].sort().join('-')`
(`background.js` line 307).  JavaScript's default array sort compares the
decimal string forms, so the pair is ordered by string comparison of the
two ids; the `-`-joined string is kept as the ordered pair itself. -/
def pairKey (a b : Nat) : Nat × Nat :=
  if toString b < toString a then (b, a) else (a, b)

/-- `recordRelationship(fromId, toId, dwellMs)` (`background.js` lines
305-314). -/
def recordRelationship (tabRelationships : List ((Nat × Nat) × RelData))
    (fromId toId : Nat) (dwellMs : Int) : List ((Nat × Nat) × RelData) :=
  let key := pairKey fromId toId
  let cur := (aget tabRelationships key).getD ⟨0, 0⟩
  aset tabRelationships key ⟨cur.count + 1, cur.totalDwellSeconds + (dwellMs : Rat) / 1000⟩

/-- The `chrome.tabs.onActivated` listener (`background.js` lines 99-121)
as a pure state transition on delivery of one "tab activated" event with
payload `tabId` at wall-clock time `now`.  The guard
`previousTabId && previousTabStart` is JavaScript truthiness: it fails
when either is `null` or `0`. -/
def onActivated (st : TrackerState) (tabId : Nat) (now : Int) : TrackerState :=
  let st1 : TrackerState := { st with tabActivity := aset st.tabActivity tabId now }
  let st2 : TrackerState :=
    match st.previousTabId, st.previousTabStart with
    | some prev, some start =>
      if prev ≠ 0 ∧ start ≠ 0 then
        let dwellMs : Int := now - start
        let eng := updateEngagement st1.tabEngagement prev dwellMs
        let rels :=
          if MIN_DWELL_MS ≤ dwellMs ∧ prev ≠ tabId then
            recordRelationship st1.tabRelationships prev tabId dwellMs
          else st1.tabRelationships
        { st1 with tabEngagement := eng, tabRelationships := rels }
      else st1
    | _, _ => st1
  { st2 with previousTabId := some tabId, previousTabStart := some now }

/-- The engagement record of a tab, defaulting to zero as the source does
on first touch. -/
def engOf (st : TrackerState) (tabId : Nat) : Engagement :=
  (aget st.tabEngagement tabId).getD ⟨0, 0⟩

/-- The relationship record under a pair key, defaulting to zero. -/
def relOf (st : TrackerState) (key : Nat × Nat) : RelData :=
  (aget st.tabRelationships key).getD ⟨0, 0⟩

theorem updateEngagement_aget_self (eng : List (Nat × Engagement)) (tabId : Nat) (d : Int) :
    aget (updateEngagement eng tabId d) tabId =
      some ⟨((aget eng tabId).getD ⟨0, 0⟩).totalSeconds + (d : Rat) / 1000,
            ((aget eng tabId).getD ⟨0, 0⟩).visits + 1⟩ := by
  unfold updateEngagement
  exact aget_aset_self ..

theorem updateEngagement_aget_ne (eng : List (Nat × Engagement)) (tabId id : Nat) (d : Int)
    (h : id ≠ tabId) : aget (updateEngagement eng tabId d) id = aget eng id := by
  unfold updateEngagement
  exact aget_aset_ne _ _ _ _ h

/-- Characterization of one delivery of `chrome.tabs.onActivated` when a
previous focus exists (and both the previous id and start time are
JavaScript-truthy): activity is stamped, engagement of the departed tab
is updated unconditionally, and a relationship is recorded exactly when
the dwell reached `MIN_DWELL_MS` and the focus actually moved. -/
theorem onActivated_spec (s : TrackerState) (tabId prev : Nat) (now start : Int)
    (hp : s.previousTabId = some prev) (hs : s.previousTabStart = some start)
    (hp0 : prev ≠ 0) (hs0 : start ≠ 0) :
    onActivated s tabId now =
      { tabActivity := aset s.tabActivity tabId now
        previousTabId := some tabId
        previousTabStart := some now
        tabEngagement := updateEngagement s.tabEngagement prev (now - start)
        tabRelationships :=
          if MIN_DWELL_MS ≤ now - start ∧ prev ≠ tabId then
            recordRelationship s.tabRelationships prev tabId (now - start)
          else s.tabRelationships } := by
  unfold onActivated
  rw [hp, hs]
  simp [hp0, hs0]

/-- Characterization of one delivery of `chrome.tabs.onActivated` when no
previous focus exists (`previousTabId`/`previousTabStart` null): only the
activity map and the focus marker change. -/
theorem onActivated_spec_none (s : TrackerState) (tabId : Nat) (now : Int)
    (hp : s.previousTabId = none) :
    onActivated s tabId now =
      { tabActivity := aset s.tabActivity tabId now
        previousTabId := some tabId
        previousTabStart := some now
        tabEngagement := s.tabEngagement
        tabRelationships := s.tabRelationships } := by
  unfold onActivated
  rw [hp]

/-- Whatever the previous-focus state, an activation always stamps the
activity map with the event's timestamp (`background.js` line 103). -/
theorem onActivated_tabActivity (s : TrackerState) (tabId : Nat) (now : Int) :
    (onActivated s tabId now).tabActivity = aset s.tabActivity tabId now := by
  obtain ⟨act, pid, pst, eng, rels⟩ := s
  unfold onActivated
  cases pid <;> cases pst <;> first
    | rfl
    | (split <;> (try split) <;> rfl)

/-- Claim C1, counterexample: delivering the same "tab activated" event
(tab 1, time 1000) twice with identical timestamps does not leave the
`tabEngagement` store unchanged beyond the first application — the second
delivery is processed as a focus transition with dwell 0 and bumps the
visit count of tab 1, so the store differs from its state after the first
delivery alone. -/
theorem claim1_counterexample :
    (onActivated (onActivated trackerInit 1 1000) 1 1000).tabEngagement ≠
      (onActivated trackerInit 1 1000).tabEngagement := by
  decide

/-- Claim C1, amended: replaying the same "tab activated" event twice with
identical timestamps leaves `tabActivity`, every `RelationshipRecord`, and
every engagement `totalSeconds` unchanged beyond the first application
(no double counting of dwell seconds or transition counts), but the
duplicate delivery increments the re-focused tab's visit count by one;
engagement records of all other tabs are untouched. -/
theorem claim1_theorem (st : TrackerState) (tabId : Nat) (t : Int)
    (hid : tabId ≠ 0) (ht : t ≠ 0) :
    (onActivated (onActivated st tabId t) tabId t).tabRelationships
        = (onActivated st tabId t).tabRelationships
    ∧ (onActivated (onActivated st tabId t) tabId t).tabActivity
        = (onActivated st tabId t).tabActivity
    ∧ (∀ id : Nat, (engOf (onActivated (onActivated st tabId t) tabId t) id).totalSeconds
        = (engOf (onActivated st tabId t) id).totalSeconds)
    ∧ (engOf (onActivated (onActivated st tabId t) tabId t) tabId).visits
        = (engOf (onActivated st tabId t) tabId).visits + 1
    ∧ (∀ id : Nat, id ≠ tabId →
        aget (onActivated (onActivated st tabId t) tabId t).tabEngagement id
          = aget (onActivated st tabId t).tabEngagement id) := by
  have hp : (onActivated st tabId t).previousTabId = some tabId := by
    unfold onActivated
    rfl
  have hs : (onActivated st tabId t).previousTabStart = some t := by
    unfold onActivated
    rfl
  have hspec := onActivated_spec (onActivated st tabId t) tabId tabId t t hp hs hid ht
  have hcond : ¬(MIN_DWELL_MS ≤ t - t ∧ tabId ≠ tabId) := fun h => h.2 rfl
  have hact : aget (onActivated st tabId t).tabActivity tabId = some t := by
    rw [onActivated_tabActivity]
    exact aget_aset_self ..
  refine ⟨?_, ?_, ?_, ?_, ?_⟩
  · rw [hspec]
    simp [hcond]
  · rw [hspec]
    simp [aset_of_aget_eq _ _ _ hact]
  · intro id
    by_cases h : id = tabId
    · subst h
      rw [hspec]
      simp only [engOf, updateEngagement_aget_self]
      simp
    · rw [hspec]
      simp only [engOf]
      rw [updateEngagement_aget_ne _ _ _ _ h]
  · rw [hspec]
    simp only [engOf, updateEngagement_aget_self, Option.getD_some]
  · intro id h
    rw [hspec]
    exact updateEngagement_aget_ne _ _ _ _ h

/-- Claim C1, witness: applying the amended idempotence statement at the
concrete duplicate event (tab 1, time 1000) starting from the initial
tracker state. -/
theorem claim1_witness :
    (onActivated (onActivated trackerInit 1 1000) 1 1000).tabRelationships
        = (onActivated trackerInit 1 1000).tabRelationships
    ∧ (engOf (onActivated (onActivated trackerInit 1 1000) 1 1000) 1).visits = 1 := by
  have h := claim1_theorem trackerInit 1 1000 (by decide) (by decide)
  refine ⟨h.1, ?_⟩
  rw [h.2.2.2.1]
  decide

/-- Claim C5: on a focus transition, the departing tab's engagement record
is updated unconditionally (dwell seconds added, visit count bumped),
while the relationship record of the unordered pair is created or updated
exactly when the dwell reached `MIN_DWELL_MS` (3000 ms) and the
destination differs from the source; otherwise the relationship store is
untouched. -/
theorem claim5_theorem (st : TrackerState) (tabId prev : Nat) (now start : Int)
    (hp : st.previousTabId = some prev) (hs : st.previousTabStart = some start)
    (hp0 : prev ≠ 0) (hs0 : start ≠ 0) :
    (engOf (onActivated st tabId now) prev).totalSeconds
        = (engOf st prev).totalSeconds + ((now - start : Int) : Rat) / 1000
    ∧ (engOf (onActivated st tabId now) prev).visits = (engOf st prev).visits + 1
    ∧ (MIN_DWELL_MS ≤ now - start ∧ prev ≠ tabId →
        aget (onActivated st tabId now).tabRelationships (pairKey prev tabId)
          = some ⟨(relOf st (pairKey prev tabId)).count + 1,
                  (relOf st (pairKey prev tabId)).totalDwellSeconds
                    + ((now - start : Int) : Rat) / 1000⟩)
    ∧ (¬(MIN_DWELL_MS ≤ now - start ∧ prev ≠ tabId) →
        (onActivated st tabId now).tabRelationships = st.tabRelationships) := by
  have hspec := onActivated_spec st tabId prev now start hp hs hp0 hs0
  refine ⟨?_, ?_, ?_, ?_⟩
  · rw [hspec]
    simp only [engOf, updateEngagement_aget_self, Option.getD_some]
  · rw [hspec]
    simp only [engOf, updateEngagement_aget_self, Option.getD_some]
  · intro hc
    rw [hspec]
    simp only [if_pos hc]
    unfold recordRelationship relOf
    exact aget_aset_self ..
  · intro hc
    rw [hspec]
    simp only [if_neg hc]

/-- Claim C5, witness: from a state whose previous focus is tab 1 since
time 1000, a transition to tab 2 at time 3999 (dwell 2999 ms) records no
relationship, while a transition to tab 2 at time 4000 (dwell 3000 ms)
creates the relationship record with count 1 and 3 dwell seconds; both
update the departing tab's engagement. -/
theorem claim5_witness :
    (onActivated ⟨[(1, 1000)], some 1, some 1000, [], []⟩ 2 3999).tabRelationships = []
    ∧ (engOf (onActivated ⟨[(1, 1000)], some 1, some 1000, [], []⟩ 2 3999) 1).visits = 1
    ∧ aget (onActivated ⟨[(1, 1000)], some 1, some 1000, [], []⟩ 2 4000).tabRelationships
        (pairKey 1 2) = some ⟨1, 3⟩ := by
  have h1 := claim5_theorem ⟨[(1, 1000)], some 1, some 1000, [], []⟩ 2 1 3999 1000
    rfl rfl (by decide) (by decide)
  have h2 := claim5_theorem ⟨[(1, 1000)], some 1, some 1000, [], []⟩ 2 1 4000 1000
    rfl rfl (by decide) (by decide)
  refine ⟨?_, ?_, ?_⟩
  · exact h1.2.2.2 (by decide)
  · rw [h1.2.1]
    decide
  · rw [h2.2.2.1 (by decide)]
    simp only [relOf, aget, Option.getD_none]
    norm_num

/-- The settings snapshot (`background.js` lines 22-31). -/
structure Settings where
  idleEnabled : Bool
  idleTime : Int
  idleUnit : String
  memoryEnabled : Bool
  memoryThresholdMB : Int
  duplicatesEnabled : Bool
  apiKey : String
  organizationMode : String
deriving DecidableEq, Repr

/-- `DEFAULT_SETTINGS` (`background.js` lines 22-31). -/
def DEFAULT_SETTINGS : Settings :=
  ⟨true, 30, "minutes", false, 500, true, "", "groups"⟩

/-- The `multipliers` lookup of `getIdleThresholdMs`
(`background.js` line 172): unknown units fall back to minutes. -/
def multipliers (unit : String) : Option Int :=
  if unit = "minutes" then some (60 * 1000)
  else if unit = "hours" then some (60 * 60 * 1000)
  else if unit = "days" then some (24 * 60 * 60 * 1000)
  else none

/-- `getIdleThresholdMs()` (`background.js` lines 171-174). -/
def getIdleThresholdMs (s : Settings) : Int :=
  s.idleTime * ((multipliers s.idleUnit).getD (60 * 1000))

/-- `tabActivity.get(tab.id) || now` (`background.js` line 188):
JavaScript `||` replaces both a missing entry and a stored `0` by the
fallback `now`. -/
def lastActiveOrNow (activity : List (Nat × Int)) (id : Nat) (now : Int) : Int :=
  match aget activity id with
  | some v => if v = 0 then now else v
  | none => now

/-- The marking phase of `checkIdleTabs` (`background.js` lines 177-192):
a tab is marked exactly when it is neither pinned nor active and
`now - lastActive > idleThreshold`. -/
def checkIdleTabsToClose (tabs : List Tab) (activity : List (Nat × Int)) (now : Int)
    (s : Settings) : List Tab :=
  tabs.filter fun t =>
    !t.pinned && !t.active &&
      decide (getIdleThresholdMs s < now - lastActiveOrNow activity t.id now)

/-- Claim C6: a resource with no Activity Ledger entry gets the current
time as its last-active fallback, so it is never marked by the idle
policy on the cycle in which it is first seen, for any positive idle
threshold. -/
theorem claim6_theorem (tabs : List Tab) (activity : List (Nat × Int)) (now : Int)
    (s : Settings) (t : Tab) (hnone : aget activity t.id = none)
    (hthr : 0 < getIdleThresholdMs s) :
    t ∉ checkIdleTabsToClose tabs activity now s := by
  intro hmem
  rw [checkIdleTabsToClose, List.mem_filter] at hmem
  have h2 := hmem.2
  simp only [lastActiveOrNow, hnone, Bool.and_eq_true, decide_eq_true_eq] at h2
  have := h2.2
  omega

/-- Claim C6, witness: a never-observed tab is not marked by the idle
policy under the default settings (threshold 30 minutes). -/
theorem claim6_witness :
    (⟨1, "https://a", "A", false, false⟩ : Tab) ∉
      checkIdleTabsToClose [⟨1, "https://a", "A", false, false⟩] [] 100 DEFAULT_SETTINGS :=
  claim6_theorem _ _ _ _ _ rfl (by decide)

/-- `String.startsWith` on the underlying character lists (kernel
evaluable, same semantics: one string is a prefix of the other). -/
def strStartsWith (s p : String) : Bool :=
  p.data.isPrefixOf s.data

/-- The eligibility filter of `checkDuplicateTabs`
(`background.js` line 247): tabs without a URL, pinned tabs and
`chrome://` pages are skipped. -/
def dupEligible (t : Tab) : Bool :=
  t.url != "" && !t.pinned && !(strStartsWith t.url "chrome://")

/-- `tabActivity.get(tab.id) || 0` (`background.js` lines 264-265). -/
def lastActiveOr0 (activity : List (Nat × Int)) (t : Tab) : Int :=
  (aget activity t.id).getD 0

/-- The sort comparator of `checkDuplicateTabs` (`background.js` lines
263-267): `a` precedes `b` when `b`'s last-active time is at most
`a`'s, i.e. most recently active first. -/
def dupPrefer (activity : List (Nat × Int)) (a b : Tab) : Prop :=
  lastActiveOr0 activity b ≤ lastActiveOr0 activity a

instance (activity : List (Nat × Int)) : DecidableRel (dupPrefer activity) :=
  fun _ _ => Int.decLe _ _

instance (activity : List (Nat × Int)) : IsTotal Tab (dupPrefer activity) :=
  ⟨fun _ _ => le_total _ _⟩

instance (activity : List (Nat × Int)) : IsTrans Tab (dupPrefer activity) :=
  ⟨fun _ _ _ h1 h2 => le_trans h2 h1⟩

/-- `tabGroup.sort((a, b) => bTime - aTime)` (`background.js` lines
263-267).  JavaScript's `Array.sort` is stable, so any stable sort with
the same comparator produces the same list; insertion sort is used here
because it is stable and evaluates in the kernel. -/
def dupSort (activity : List (Nat × Int)) (g : List Tab) : List Tab :=
  List.insertionSort (dupPrefer activity) g

/-- The per-URL-group marking of `checkDuplicateTabs` (`background.js`
lines 259-275): groups of size at most 1 mark nothing; otherwise the
most recently active tab (index 0 after the sort) is kept and every
later, non-active tab is marked. -/
def groupMarked (activity : List (Nat × Int)) (g : List Tab) : List Tab :=
  if g.length ≤ 1 then [] else (dupSort activity g).tail.filter fun t => !t.active

/-- The distinct URLs of the eligible tabs in first-occurrence order
(the iteration order of the `urlGroups` JavaScript `Map`,
`background.js` lines 244-254). -/
def urlKeys (ts : List Tab) : List String :=
  ts.foldl (fun acc t => if acc.contains t.url then acc else acc ++ [t.url]) []

/-- The marking phase of `checkDuplicateTabs` (`background.js` lines
240-275): group the eligible tabs by exact URL, then mark per group. -/
def checkDuplicateTabsToClose (tabs : List Tab) (activity : List (Nat × Int)) : List Tab :=
  let elig := tabs.filter dupEligible
  ((urlKeys elig).map fun u => groupMarked activity (elig.filter fun t => t.url == u)).flatten

/-- Claim C4: within a group of live, non-pinned, non-privileged tabs
sharing one URL (with pairwise distinct last-active times), the duplicate
policy marks exactly the non-active tabs other than the most recently
active one, and never marks the active tab regardless of recency; in the
concrete case A(lastActive 10), B(lastActive 20, focused), C(lastActive 5)
with equal URLs, exactly A and C are marked and B is kept. -/
theorem claim4_theorem (activity : List (Nat × Int)) (g : List Tab)
    (hnodup : g.Nodup) (hlen : 2 ≤ g.length)
    (hdist : ∀ a ∈ g, ∀ b ∈ g, a ≠ b →
      lastActiveOr0 activity a ≠ lastActiveOr0 activity b) :
    (∀ t : Tab, t.active = true → t ∉ groupMarked activity g)
    ∧ (∀ t ∈ g, t ∈ groupMarked activity g ↔
        t.active = false ∧ ∃ u ∈ g, lastActiveOr0 activity t < lastActiveOr0 activity u)
    ∧ checkDuplicateTabsToClose
        [⟨1, "https://x", "A", false, false⟩, ⟨2, "https://x", "B", false, true⟩,
          ⟨3, "https://x", "C", false, false⟩]
        [(1, 10), (2, 20), (3, 5)]
      = [⟨1, "https://x", "A", false, false⟩, ⟨3, "https://x", "C", false, false⟩] := by
  have hperm : List.Perm (dupSort activity g) g := List.perm_insertionSort _ _
  have hsorted : List.Sorted (dupPrefer activity) (dupSort activity g) :=
    List.sorted_insertionSort _ _
  have hnodup2 : (dupSort activity g).Nodup := hperm.nodup_iff.2 hnodup
  have hgm : groupMarked activity g
      = ((dupSort activity g).tail.filter fun t => !t.active) := by
    unfold groupMarked
    rw [if_neg (by omega)]
  obtain ⟨hd, tl, hcons⟩ : ∃ hd tl, dupSort activity g = hd :: tl := by
    cases h : dupSort activity g with
    | nil =>
      rw [h] at hperm
      have := hperm.length_eq
      simp at this
      omega
    | cons hd tl => exact ⟨hd, tl, rfl⟩
  have hhdg : hd ∈ g := hperm.mem_iff.1 (hcons ▸ List.mem_cons_self hd tl)
  have hmax : ∀ u ∈ g, lastActiveOr0 activity u ≤ lastActiveOr0 activity hd := by
    intro u hu
    have hus : u ∈ hd :: tl := hcons ▸ hperm.mem_iff.2 hu
    rcases List.mem_cons.1 hus with h | h
    · exact h ▸ le_refl _
    · exact (List.pairwise_cons.1 (hcons ▸ hsorted)).1 u h
  have hne_tl : hd ∉ tl := (List.nodup_cons.1 (hcons ▸ hnodup2)).1
  refine ⟨?_, ?_, ?_⟩
  · intro t ht hmem
    rw [hgm, List.mem_filter] at hmem
    simp [ht] at hmem
  · intro t htg
    rw [hgm, hcons]
    simp only [List.tail_cons, List.mem_filter, Bool.not_eq_eq_eq_not, Bool.not_true]
    constructor
    · rintro ⟨htl, hact⟩
      refine ⟨hact, hd, hhdg, ?_⟩
      have hle := hmax t htg
      have hne : t ≠ hd := fun he => hne_tl (he ▸ htl)
      have := hdist t htg hd hhdg hne
      omega
    · rintro ⟨hact, u, hu, hlt⟩
      have hne : t ≠ hd := by
        intro he
        subst he
        exact absurd hlt (not_lt.2 (hmax u hu))
      have hts : t ∈ hd :: tl := hcons ▸ hperm.mem_iff.2 htg
      rcases List.mem_cons.1 hts with h | h
      · exact absurd h hne
      · exact ⟨h, hact⟩
  · decide

/-- Claim C4, witness: in the concrete group A(10), B(20, focused),
C(5), tab A is marked and the focused tab B is not. -/
theorem claim4_witness :
    (⟨1, "https://x", "A", false, false⟩ : Tab) ∈
      groupMarked [(1, 10), (2, 20), (3, 5)]
        [⟨1, "https://x", "A", false, false⟩, ⟨2, "https://x", "B", false, true⟩,
          ⟨3, "https://x", "C", false, false⟩]
    ∧ (⟨2, "https://x", "B", false, true⟩ : Tab) ∉
      groupMarked [(1, 10), (2, 20), (3, 5)]
        [⟨1, "https://x", "A", false, false⟩, ⟨2, "https://x", "B", false, true⟩,
          ⟨3, "https://x", "C", false, false⟩] := by
  have h := claim4_theorem [(1, 10), (2, 20), (3, 5)]
    [⟨1, "https://x", "A", false, false⟩, ⟨2, "https://x", "B", false, true⟩,
      ⟨3, "https://x", "C", false, false⟩] (by decide) (by decide) (by decide)
  constructor
  · exact (h.2.1 ⟨1, "https://x", "A", false, false⟩ (by decide)).2
      ⟨rfl, ⟨2, "https://x", "B", false, true⟩, by decide, by decide⟩
  · exact h.1 ⟨2, "https://x", "B", false, true⟩ rfl

/-- One `closedTabs` history record (`background.js` lines 47-52). -/
structure ClosedEntry where
  url : String
  title : String
  closedAt : Int
  reason : String
deriving DecidableEq, Repr

/-- The entry built for one closed tab (`background.js` lines 47-52):
`title: tab.title || tab.url` falls back to the URL for an empty title. -/
def mkClosedEntry (now : Int) (reason : String) (t : Tab) : ClosedEntry :=
  ⟨t.url, if t.title = "" then t.url else t.title, now, reason⟩

/-- `saveClosedTabs(tabs, reason)` (`background.js` lines 45-54) as a
pure function of the stored history: prepend one entry per tab, then
truncate to the 100 newest. -/
def saveClosedTabs (closedTabs : List ClosedEntry) (tabs : List Tab) (reason : String)
    (now : Int) : List ClosedEntry :=
  (tabs.map (mkClosedEntry now reason) ++ closedTabs).take 100

/-- One eviction event: a batch of tabs removed by one policy at one
wall-clock time. -/
structure EvictionEvent where
  tabs : List Tab
  reason : String
  time : Int
deriving DecidableEq, Repr

/-- The history entries contributed by one eviction event. -/
def entriesOf (e : EvictionEvent) : List ClosedEntry :=
  e.tabs.map (mkClosedEntry e.time e.reason)

/-- The `closedTabs` store after a sequence of eviction events, each
processed by `saveClosedTabs`. -/
def runEvictions (init : List ClosedEntry) (evs : List EvictionEvent) : List ClosedEntry :=
  evs.foldl (fun acc e => saveClosedTabs acc e.tabs e.reason e.time) init

theorem take_append_take {α : Type} (l m : List α) (k : Nat) :
    (l ++ m.take k).take k = (l ++ m).take k := by
  rw [List.take_append_eq_append_take, List.take_append_eq_append_take, List.take_take]
  congr 2
  omega

/-- Closed form of the history fold: the store is the 100 newest entries
of the reversed event stream, newest first. -/
theorem runEvictions_eq (evs : List EvictionEvent) (acc : List ClosedEntry)
    (hacc : acc.length ≤ 100) :
    runEvictions acc evs = ((evs.reverse.map entriesOf).flatten ++ acc).take 100 := by
  induction evs generalizing acc with
  | nil =>
    simp only [runEvictions, List.foldl_nil, List.reverse_nil, List.map_nil,
      List.flatten_nil, List.nil_append]
    exact (List.take_of_length_le hacc).symm
  | cons e evs ih =>
    show runEvictions ((entriesOf e ++ acc).take 100) evs = _
    rw [ih _ (List.length_take_le _ _), take_append_take]
    simp [List.reverse_cons, List.flatten_append, List.append_assoc]

theorem sum_map_ones {α : Type} (l : List α) (f : α → Nat) (h : ∀ e ∈ l, f e = 1) :
    (l.map f).sum = l.length := by
  induction l with
  | nil => rfl
  | cons hd tl ih =>
    simp only [List.map_cons, List.sum_cons, List.length_cons,
      h hd (List.mem_cons_self hd tl)]
    rw [ih fun e he => h e (List.mem_cons_of_mem hd he)]
    omega

/-- Claim C9: the ClosedEntry history holds at most 100 entries after any
sequence of eviction events; when event times are non-decreasing the
history is in newest-first order; the store is exactly the 100 newest
entries of the event stream (newest first); and after 150 single-tab
eviction events it holds exactly 100 entries. -/
theorem claim9_theorem (evs : List EvictionEvent) :
    (runEvictions [] evs).length ≤ 100
    ∧ (List.Pairwise (fun a b => a.time ≤ b.time) evs →
        List.Pairwise (fun a b => b.closedAt ≤ a.closedAt) (runEvictions [] evs))
    ∧ runEvictions [] evs = ((evs.reverse.map entriesOf).flatten).take 100
    ∧ ((∀ e ∈ evs, e.tabs.length = 1) → evs.length = 150 →
        (runEvictions [] evs).length = 100) := by
  have heq := runEvictions_eq evs [] (by simp)
  rw [List.append_nil] at heq
  refine ⟨?_, ?_, heq, ?_⟩
  · rw [heq]
    exact List.length_take_le _ _
  · intro hmono
    rw [heq]
    apply List.Pairwise.sublist (List.take_sublist _ _)
    rw [List.pairwise_flatten]
    refine ⟨?_, ?_⟩
    · intro l hl
      obtain ⟨e, _, rfl⟩ := List.mem_map.1 hl
      apply List.pairwise_of_forall_mem_list
      intro a ha b hb
      obtain ⟨ta, _, rfl⟩ := List.mem_map.1 ha
      obtain ⟨tb, _, rfl⟩ := List.mem_map.1 hb
      exact le_refl _
    · rw [List.pairwise_map]
      rw [List.pairwise_reverse]
      apply hmono.imp
      intro e1 e2 h12 x hx y hy
      obtain ⟨tx, _, rfl⟩ := List.mem_map.1 hx
      obtain ⟨ty, _, rfl⟩ := List.mem_map.1 hy
      exact h12
  · intro hsingle hlen
    rw [heq, List.length_take, List.length_flatten, List.map_map]
    have hone : ∀ e ∈ evs.reverse, (List.length ∘ entriesOf) e = 1 := by
      intro e he
      simp only [Function.comp_apply, entriesOf, List.length_map]
      exact hsingle e (List.mem_reverse.1 he)
    rw [sum_map_ones _ _ hone, List.length_reverse, hlen]
    omega

/-- The 150 single-tab eviction events used to witness claim C9. -/
def evsW : List EvictionEvent :=
  (List.range 150).map fun i => ⟨[⟨i, "https://u", "T", false, false⟩], "idle", (i : Int)⟩

set_option maxRecDepth 10000 in
/-- Claim C9, witness: after 150 single-tab eviction events with
non-decreasing times the history holds exactly 100 entries, in
newest-first order. -/
theorem claim9_witness :
    (runEvictions [] evsW).length = 100
    ∧ List.Pairwise (fun a b => b.closedAt ≤ a.closedAt) (runEvictions [] evsW) := by
  have h := claim9_theorem evsW
  exact ⟨h.2.2.2 (by decide) (by decide), h.2.1 (by decide)⟩

/-- One activity-log record (`background.js` lines 36-42). -/
structure LogEntry where
  time : Int
  message : String
deriving DecidableEq, Repr

/-- `log(message)` (`background.js` lines 36-42) as a pure function of
the stored log: prepend, truncate to the 20 newest. -/
def logStep (logs : List LogEntry) (now : Int) (message : String) : List LogEntry :=
  (⟨now, message⟩ :: logs).take 20

/-- The two persisted stores a policy's eviction execution touches. -/
structure Store where
  closedTabs : List ClosedEntry
  logs : List LogEntry
deriving DecidableEq, Repr

/-- The eviction execution shared by the three policies
(`background.js` lines 194-202, 229-233, 277-285): with a non-empty
marked set, issue one batch `chrome.tabs.remove` call for the marked
ids; if it succeeds (`removeOk`), record the history entries and the
summary log line; if it throws, the catch skips both writes (only
`console.log`, which is not the activity log) and the failure is not
retried.  With an empty marked set nothing happens at all.  The second
component lists the batch-remove host calls issued. -/
def policyExec (removeOk : Bool) (marked : List Tab) (reason msgWord : String)
    (now : Int) (st : Store) : Store × List (List Nat) :=
  if marked.isEmpty then (st, [])
  else if removeOk then
    ({ closedTabs := saveClosedTabs st.closedTabs marked reason now,
       logs := logStep st.logs now
         ("Closed " ++ toString marked.length ++ " " ++ msgWord ++ " tab(s)") },
     [marked.map Tab.id])
  else (st, [marked.map Tab.id])

/-- A `chrome.processes.getProcessInfo` record as read by
`checkMemoryTabs` (`background.js` lines 219-226). -/
structure ProcessInfo where
  tabs : List Nat
  privateMemory : Int
deriving DecidableEq, Repr

/-- The marking phase of `checkMemoryTabs` (`background.js` lines
206-227): for each non-pinned, non-active tab, the first process listing
the tab is consulted; the tab is marked when that process's private
memory exceeds the threshold, and skipped when no process matches. -/
def checkMemoryTabsToClose (tabs : List Tab) (procs : List ProcessInfo)
    (thresholdBytes : Int) : List Tab :=
  tabs.filter fun t =>
    !t.pinned && !t.active &&
      (match procs.find? (fun p => p.tabs.contains t.id) with
       | some p => decide (thresholdBytes < p.privateMemory)
       | none => false)

/-- The removal outcome of each policy's single batch host call in one
cycle. -/
structure RemovalOutcomes where
  dupOk : Bool
  idleOk : Bool
  memOk : Bool
deriving DecidableEq, Repr

/-- `runChecks()` (`background.js` lines 154-168): the enabled policies
run in the fixed order duplicate, idle, memory, each issuing at most one
batch-remove call; `procs = none` models an absent
`chrome.processes` capability (the memory policy is then a no-op). -/
def runChecks (s : Settings) (tabs : List Tab) (activity : List (Nat × Int))
    (procs : Option (List ProcessInfo)) (now : Int) (oc : RemovalOutcomes)
    (st : Store) : Store × List (List Nat) :=
  let r1 := if s.duplicatesEnabled then
      policyExec oc.dupOk (checkDuplicateTabsToClose tabs activity) "duplicate"
        "duplicate" now st
    else (st, [])
  let r2 := if s.idleEnabled then
      policyExec oc.idleOk (checkIdleTabsToClose tabs activity now s) "idle" "idle"
        now r1.1
    else (r1.1, [])
  let r3 := if s.memoryEnabled then
      match procs with
      | some ps => policyExec oc.memOk
          (checkMemoryTabsToClose tabs ps (s.memoryThresholdMB * 1024 * 1024))
          "memory" "memory-heavy" now r2.1
      | none => (r2.1, [])
    else (r2.1, [])
  (r3.1, r1.2 ++ r2.2 ++ r3.2)

/-- Claim C8: with a non-empty marked set a policy issues exactly one
batch-remove call; on failure neither the ClosedEntry history nor the
activity log changes and the call is not retried, and the remaining
policies of the cycle still run on the unchanged store; on success
exactly one ClosedEntry per removed tab (tagged with the policy's
reason) and a single summary LogEntry are prepended. -/
theorem claim8_theorem (marked : List Tab) (reason msgWord : String)
    (now : Int) (st : Store) (s : Settings) (tabs : List Tab)
    (activity : List (Nat × Int)) (ps : List ProcessInfo) (oc : RemovalOutcomes)
    (hmarked : marked ≠ [])
    (hdm : checkDuplicateTabsToClose tabs activity ≠ [])
    (hdup : s.duplicatesEnabled = true) (hidle : s.idleEnabled = true)
    (hmem : s.memoryEnabled = true) :
    policyExec false marked reason msgWord now st = (st, [marked.map Tab.id])
    ∧ policyExec true marked reason msgWord now st =
        ({ closedTabs := (marked.map (mkClosedEntry now reason) ++ st.closedTabs).take 100,
           logs := (⟨now, "Closed " ++ toString marked.length ++ " " ++ msgWord
             ++ " tab(s)"⟩ :: st.logs).take 20 },
         [marked.map Tab.id])
    ∧ runChecks s tabs activity (some ps) now ⟨false, oc.idleOk, oc.memOk⟩ st =
        ((policyExec oc.memOk
            (checkMemoryTabsToClose tabs ps (s.memoryThresholdMB * 1024 * 1024))
            "memory" "memory-heavy" now
            (policyExec oc.idleOk (checkIdleTabsToClose tabs activity now s) "idle"
              "idle" now st).1).1,
          [(checkDuplicateTabsToClose tabs activity).map Tab.id]
            ++ (policyExec oc.idleOk (checkIdleTabsToClose tabs activity now s) "idle"
              "idle" now st).2
            ++ (policyExec oc.memOk
              (checkMemoryTabsToClose tabs ps (s.memoryThresholdMB * 1024 * 1024))
              "memory" "memory-heavy" now
              (policyExec oc.idleOk (checkIdleTabsToClose tabs activity now s) "idle"
                "idle" now st).1).2) := by
  have hne : marked.isEmpty = false := by
    cases marked with
    | nil => exact absurd rfl hmarked
    | cons hd tl => rfl
  have hne2 : (checkDuplicateTabsToClose tabs activity).isEmpty = false := by
    cases h : checkDuplicateTabsToClose tabs activity with
    | nil => exact absurd h hdm
    | cons a l => rfl
  refine ⟨?_, ?_, ?_⟩
  · simp [policyExec, hne]
  · simp [policyExec, hne, saveClosedTabs, logStep]
  · simp [runChecks, hdup, hidle, hmem, policyExec, hne2]

/-- Claim C10: a policy evaluation whose marked set is empty issues no
host removal call and leaves the ClosedEntry history and the activity
log unchanged; a whole cycle in which every enabled policy marks nothing
leaves the store unchanged and issues no call. -/
theorem claim10_theorem (removeOk : Bool) (reason msgWord : String) (now : Int)
    (st : Store) (s : Settings) (tabs : List Tab) (activity : List (Nat × Int))
    (procs : Option (List ProcessInfo)) (oc : RemovalOutcomes)
    (hdup : checkDuplicateTabsToClose tabs activity = [])
    (hidle : checkIdleTabsToClose tabs activity now s = [])
    (hmem : ∀ ps, procs = some ps →
      checkMemoryTabsToClose tabs ps (s.memoryThresholdMB * 1024 * 1024) = []) :
    policyExec removeOk [] reason msgWord now st = (st, [])
    ∧ runChecks s tabs activity procs now oc st = (st, []) := by
  refine ⟨by simp [policyExec], ?_⟩
  cases procs with
  | none =>
    simp [runChecks, hdup, hidle, policyExec]
  | some ps =>
    simp [runChecks, hdup, hidle, hmem ps rfl, policyExec]

/-- Claim C8, witness: evicting the single marked tab 1 under the idle
policy — on host failure the store is unchanged though the one batch
call was issued; on success one ClosedEntry and one summary LogEntry
appear. -/
theorem claim8_witness :
    policyExec false [⟨1, "https://a", "A", false, false⟩] "idle" "idle" 5 ⟨[], []⟩
      = (⟨[], []⟩, [[1]])
    ∧ policyExec true [⟨1, "https://a", "A", false, false⟩] "idle" "idle" 5 ⟨[], []⟩
      = (⟨[⟨"https://a", "A", 5, "idle"⟩], [⟨5, "Closed 1 idle tab(s)"⟩]⟩, [[1]]) := by
  have h := claim8_theorem [⟨1, "https://a", "A", false, false⟩] "idle" "idle" 5
    ⟨[], []⟩ ⟨true, 30, "minutes", true, 500, true, "", "groups"⟩
    [⟨1, "https://x", "A", false, false⟩, ⟨2, "https://x", "B", false, false⟩]
    [(1, 10), (2, 20)] [] ⟨true, true, true⟩
    (by decide) (by decide) rfl rfl rfl
  refine ⟨h.1, ?_⟩
  rw [h.2.1]
  decide

/-- Claim C10, witness: with no live tabs every policy marks nothing, a
single policy execution on the empty marked set does not touch the
store, and a whole cycle issues no host call and changes nothing. -/
theorem claim10_witness :
    policyExec true [] "idle" "idle" 0 ⟨[], []⟩ = (⟨[], []⟩, [])
    ∧ runChecks DEFAULT_SETTINGS [] [] none 0 ⟨true, true, true⟩ ⟨[], []⟩
      = (⟨[], []⟩, []) := by
  have h := claim10_theorem true "idle" "idle" 0 ⟨[], []⟩ DEFAULT_SETTINGS [] [] none
    ⟨true, true, true⟩ rfl rfl (fun ps hps => nomatch hps)
  exact ⟨h.1, h.2⟩

/-- One proposed workspace from the categorization service
(`{ name, tabIds }`, `background.js` line 381). -/
structure Workspace where
  name : String
  tabIds : List Nat
deriving DecidableEq, Repr

/-- Whether `applyWorkspaces` (`background.js` lines 435-488) actually
applies the indexed workspace: it must propose at least 2 tab ids, keep
at least 2 after intersecting with the live tab ids, and the host
grouping call at that position must succeed (`applyOk`). -/
def wsApplied (validTabIds : List Nat) (applyOk : Nat → Bool) (iw : Nat × Workspace) : Bool :=
  !decide (iw.2.tabIds.length < 2)
    && !decide ((iw.2.tabIds.filter fun id => validTabIds.contains id).length < 2)
    && applyOk iw.1

/-- The number of workspaces `applyWorkspaces` actually applies to the
host. -/
def appliedWorkspaceCount (workspaces : List Workspace) (validTabIds : List Nat)
    (applyOk : Nat → Bool) : Nat :=
  (workspaces.enum.filter (wsApplied validTabIds applyOk)).length

/-- The reply sent by the `organizeWorkspaces` message handler
(`background.js` lines 491-521). -/
inductive OrganizeResponse where
  | success (count : Nat)
  | error (message : String)
deriving DecidableEq, Repr

/-- The `organizeWorkspaces` branch of the `chrome.runtime.onMessage`
listener (`background.js` lines 491-521): no credential yields an error;
a detection failure propagates its message; otherwise the reply is
`success` with `result.workspaces.length` (0 when the list is empty). -/
def organizeHandler (apiKey : String) (outcome : Except String (List Workspace)) :
    OrganizeResponse :=
  if apiKey = "" then .error "No API key configured"
  else
    match outcome with
    | .error e => .error e
    | .ok wss => if 0 < wss.length then .success wss.length else .success 0

/-- Claim C2, counterexample: a run whose only proposed workspace has a
single tab id applies no workspace (the Applying step discards it), yet
the handler reports success with count 1 — the reported count is not
the number of applied workspaces. -/
theorem claim2_counterexample :
    organizeHandler "key" (Except.ok [⟨"W", [1]⟩]) = OrganizeResponse.success 1
    ∧ appliedWorkspaceCount [⟨"W", [1]⟩] [1] (fun _ => true) = 0 := by
  decide

/-- Claim C2, amended: on a successful run the handler replies with the
number of workspaces proposed by the service (`result.workspaces.length`),
not the number applied; the applied count never exceeds that reported
count but may be smaller when workspaces are discarded or fail to
apply. -/
theorem claim2_theorem (apiKey : String) (outcome : Except String (List Workspace))
    (wss : List Workspace) (validTabIds : List Nat) (applyOk : Nat → Bool)
    (hkey : apiKey ≠ "") (hok : outcome = Except.ok wss) :
    organizeHandler apiKey outcome = OrganizeResponse.success wss.length
    ∧ appliedWorkspaceCount wss validTabIds applyOk ≤ wss.length := by
  constructor
  · by_cases h : 0 < wss.length
    · simp [organizeHandler, hkey, hok, h]
    · have h0 : wss.length = 0 := by omega
      simp [organizeHandler, hkey, hok, h, h0]
  · calc appliedWorkspaceCount wss validTabIds applyOk
        ≤ wss.enum.length := List.length_filter_le _ _
      _ = wss.length := List.enum_length

/-- Claim C2, witness: a proposal of one two-tab workspace with both
tabs live is reported as success with count 1, and the applied count is
bounded by it. -/
theorem claim2_witness :
    organizeHandler "key" (Except.ok [⟨"W", [1, 2]⟩]) = OrganizeResponse.success 1
    ∧ appliedWorkspaceCount [⟨"W", [1, 2]⟩] [1, 2] (fun _ => true) ≤ 1 := by
  have h := claim2_theorem "key" (Except.ok [⟨"W", [1, 2]⟩]) [⟨"W", [1, 2]⟩] [1, 2]
    (fun _ => true) (by decide) rfl
  exact ⟨h.1, h.2⟩

/-- Floor of a rational (numerator floor-divided by the positive
denominator). -/
def ratFloor (q : Rat) : Int :=
  Int.fdiv q.num (q.den : Int)

/-- JavaScript `Math.round`: add one half, round toward negative
infinity (halves round toward positive infinity). -/
def jsRound (q : Rat) : Int :=
  ratFloor (q + 1 / 2)

/-- One relationship entry of the categorization context
(`background.js` lines 340-353): the pair, its transition count, and
`Math.round(totalDwellSeconds / count)`. -/
structure RelEntry where
  pair : Nat × Nat
  count : Nat
  avgDwellSec : Int
deriving DecidableEq, Repr

/-- The sort comparator of the relationship ranking (`background.js`
line 352): descending by `count * avgDwellSec`. -/
def relPrefer (a b : RelEntry) : Prop :=
  (b.count : Int) * b.avgDwellSec ≤ (a.count : Int) * a.avgDwellSec

instance : DecidableRel relPrefer := fun _ _ => Int.decLe _ _

instance : IsTotal RelEntry relPrefer := ⟨fun _ _ => le_total _ _⟩

instance : IsTrans RelEntry relPrefer := ⟨fun _ _ _ h1 h2 => le_trans h2 h1⟩

/-- The relationship selection of `detectWorkspaces` (`background.js`
lines 340-353): keep pairs whose two tabs are still live, require
`count >= 2`, sort descending by `count * avgDwellSec` (stable), take
the top 50. -/
def relationshipsContext (stored : List ((Nat × Nat) × RelData)) (live : List Nat) :
    List RelEntry :=
  let mapped := stored.filterMap fun e =>
    if live.contains e.1.1 && live.contains e.1.2 then
      some ⟨e.1, e.2.count, jsRound (e.2.totalDwellSeconds / (e.2.count : Rat))⟩
    else none
  let filtered := mapped.filter fun r => decide (2 ≤ r.count)
  (filtered.insertionSort relPrefer).take 50

/-- The ranking key the claim states: transition count multiplied by the
exact average dwell (cumulative dwell seconds divided by transition
count), read back from the stored record of the entry's pair. -/
def specExactScore (stored : List ((Nat × Nat) × RelData)) (r : RelEntry) : Rat :=
  match aget stored r.pair with
  | some d => (d.count : Rat) * (d.totalDwellSeconds / (d.count : Rat))
  | none => 0

/-- The stored relationships of the claim C7 counterexample. -/
def c7stored : List ((Nat × Nat) × RelData) :=
  [((1, 2), ⟨2, 7⟩), ((1, 3), ⟨3, 37 / 5⟩)]

unseal Rat.add Rat.mul Rat.inv in
/-- Claim C7, counterexample: with live tabs 1, 2, 3 and stored
relationships (1,2) ↦ {count 2, 7 s} and (1,3) ↦ {count 3, 7.4 s}, the
context ranks (1,2) first (rounded score 2×4 = 8 beats 3×2 = 6), yet its
exact count × (cumulative/count) score is 7 < 7.4 — the produced list is
not in descending order of the exact score the claim names. -/
theorem claim7_counterexample :
    relationshipsContext c7stored [1, 2, 3]
      = [⟨(1, 2), 2, 4⟩, ⟨(1, 3), 3, 2⟩]
    ∧ specExactScore c7stored ⟨(1, 2), 2, 4⟩ < specExactScore c7stored ⟨(1, 3), 3, 2⟩ := by
  decide

/-- Claim C7, amended: the context contains at most 50 entries, only
pairs whose two tabs are both live with transition count at least 2, and
is in descending order of `count` multiplied by the *rounded* average
dwell seconds (`Math.round(totalDwellSeconds / count)`) — not of the
exact quotient. -/
theorem claim7_theorem (stored : List ((Nat × Nat) × RelData)) (live : List Nat) :
    (relationshipsContext stored live).length ≤ 50
    ∧ (∀ e ∈ relationshipsContext stored live,
        2 ≤ e.count ∧ live.contains e.pair.1 = true ∧ live.contains e.pair.2 = true)
    ∧ List.Pairwise
        (fun a b => (b.count : Int) * b.avgDwellSec ≤ (a.count : Int) * a.avgDwellSec)
        (relationshipsContext stored live) := by
  refine ⟨List.length_take_le _ _, ?_, ?_⟩
  · intro e he
    have he2 := List.mem_of_mem_take he
    rw [List.mem_insertionSort] at he2
    rw [List.mem_filter] at he2
    obtain ⟨hmem, hcnt⟩ := he2
    obtain ⟨src, _, hsrc⟩ := List.mem_filterMap.1 hmem
    by_cases hc : (live.contains src.1.1 && live.contains src.1.2) = true
    · rw [if_pos hc] at hsrc
      obtain ⟨hc1, hc2⟩ := Bool.and_eq_true_iff.1 hc
      obtain rfl := Option.some.inj hsrc
      exact ⟨by simpa using hcnt, hc1, hc2⟩
    · rw [if_neg hc] at hsrc
      exact absurd hsrc (by simp)
  · exact List.Pairwise.sublist (List.take_sublist _ _)
      (List.sorted_insertionSort relPrefer _)

unseal Rat.add Rat.mul Rat.inv in
/-- Claim C7, witness: the amended ranking statement applied to the
concrete counterexample store — the first entry's membership facts hold
and the produced list is sorted by the rounded score. -/
theorem claim7_witness :
    (relationshipsContext c7stored [1, 2, 3]).length ≤ 50
    ∧ (2 ≤ (⟨(1, 2), 2, 4⟩ : RelEntry).count
        ∧ List.contains [1, 2, 3] ((⟨(1, 2), 2, 4⟩ : RelEntry).pair.1) = true
        ∧ List.contains [1, 2, 3] ((⟨(1, 2), 2, 4⟩ : RelEntry).pair.2) = true)
    ∧ List.Pairwise
        (fun a b => (b.count : Int) * b.avgDwellSec ≤ (a.count : Int) * a.avgDwellSec)
        (relationshipsContext c7stored [1, 2, 3]) := by
  have h := claim7_theorem c7stored [1, 2, 3]
  exact ⟨h.1, h.2.1 ⟨(1, 2), 2, 4⟩ (by decide), h.2.2⟩

/-- A JSON value, as produced by `JSON.parse` on the service response
(`background.js` line 419). -/
inductive Json where
  | null
  | bool (b : Bool)
  | num (q : Rat)
  | str (s : String)
  | arr (elems : List Json)
  | obj (fields : List (String × Json))

/-- JSON insignificant whitespace. -/
def skipWs (cs : List Char) : List Char :=
  cs.dropWhile fun c => c == ' ' || c == '\n' || c == '\t' || c == '\r'

/-- Decimal digits to a natural number. -/
def digitsToNat (ds : List Char) : Nat :=
  ds.foldl (fun acc c => acc * 10 + (c.toNat - 48)) 0

/-- Parse a JSON number (optional minus, integer digits, optional
fractional digits; the exponent form is not modelled — the service's
relevant payloads are plain integers). -/
def parseNum (cs : List Char) : Option (Rat × List Char) :=
  let signSplit : Bool × List Char :=
    match cs with
    | '-' :: rest => (true, rest)
    | _ => (false, cs)
  let neg := signSplit.1
  let cs1 := signSplit.2
  let intDigits := cs1.takeWhile fun c => c.isDigit
  let cs2 := cs1.dropWhile fun c => c.isDigit
  if intDigits.isEmpty then none
  else
    let fracSplit : List Char × List Char :=
      match cs2 with
      | '.' :: rest => (rest.takeWhile fun c => c.isDigit, rest.dropWhile fun c => c.isDigit)
      | _ => ([], cs2)
    let denom : Nat := 10 ^ fracSplit.1.length
    let numAbs : Int := (digitsToNat intDigits * denom + digitsToNat fracSplit.1 : Nat)
    some (mkRat (if neg then -numAbs else numAbs) denom, fracSplit.2)

/-- Parse the remainder of a JSON string literal (after the opening
quote) up to its closing quote; `\n`, `\t`, `\r` escapes are decoded and
any other escaped character stands for itself (covers `\"` and `\\`;
`\u` sequences are not modelled). -/
def parseStrChars : Nat → List Char → Option (List Char × List Char)
  | 0, _ => none
  | _ + 1, [] => none
  | fuel + 1, c :: rest =>
    if c = '"' then some ([], rest)
    else if c = '\\' then
      match rest with
      | [] => none
      | e :: rest2 =>
        let ec := if e = 'n' then '\n' else if e = 't' then '\t' else if e = 'r' then '\r' else e
        match parseStrChars fuel rest2 with
        | some (s, r) => some (ec :: s, r)
        | none => none
    else
      match parseStrChars fuel rest with
      | some (s, r) => some (c :: s, r)
      | none => none

/-- Fuel-bounded recursive-descent parser for one JSON value (the
executable model of `JSON.parse`; after a comma the rest of an array or
object is parsed as an array or object again, so a trailing comma is
tolerated — a harmless leniency of the model). -/
def parseVal : Nat → List Char → Option (Json × List Char)
  | 0, _ => none
  | fuel + 1, cs0 =>
    match skipWs cs0 with
    | [] => none
    | c :: rest =>
      if c = 'n' then
        match rest with
        | 'u' :: 'l' :: 'l' :: r => some (.null, r)
        | _ => none
      else if c = 't' then
        match rest with
        | 'r' :: 'u' :: 'e' :: r => some (.bool true, r)
        | _ => none
      else if c = 'f' then
        match rest with
        | 'a' :: 'l' :: 's' :: 'e' :: r => some (.bool false, r)
        | _ => none
      else if c = '"' then
        match parseStrChars (rest.length + 1) rest with
        | some (s, r) => some (.str (String.mk s), r)
        | none => none
      else if c = '[' then
        match skipWs rest with
        | ']' :: r => some (.arr [], r)
        | _ =>
          match parseVal fuel rest with
          | some (v, r1) =>
            match skipWs r1 with
            | ']' :: r2 => some (.arr [v], r2)
            | ',' :: r2 =>
              match parseVal fuel ('[' :: r2) with
              | some (.arr vs, r3) => some (.arr (v :: vs), r3)
              | _ => none
            | _ => none
          | none => none
      else if c = '{' then
        match skipWs rest with
        | '}' :: r => some (.obj [], r)
        | '"' :: r1 =>
          match parseStrChars (r1.length + 1) r1 with
          | some (k, r2) =>
            match skipWs r2 with
            | ':' :: r3 =>
              match parseVal fuel r3 with
              | some (v, r4) =>
                match skipWs r4 with
                | '}' :: r5 => some (.obj [(String.mk k, v)], r5)
                | ',' :: r5 =>
                  match parseVal fuel ('{' :: r5) with
                  | some (.obj fs, r6) => some (.obj ((String.mk k, v) :: fs), r6)
                  | _ => none
                | _ => none
              | none => none
            | _ => none
          | none => none
        | _ => none
      else
        match parseNum (c :: rest) with
        | some (q, r) => some (.num q, r)
        | none => none

/-- The model of `JSON.parse(text)`: parse one value and require only
whitespace to remain; anything else throws, which the model reports as
`none`. -/
def jsonParse (s : String) : Option Json :=
  match parseVal (2 * s.length + 2) s.data with
  | some (v, rest) => if (skipWs rest).isEmpty then some v else none
  | none => none

/-- `content.match(/\x7b[\s\S]*\x7d/)` (`background.js` line 417): the
regex is greedy, so the match runs from the first opening brace to the
last closing brace of the whole response, provided that brace pair is in
order; otherwise there is no match. -/
def jsonMatch (content : String) : Option String :=
  let afterBrace := content.data.dropWhile fun c => c != '{'
  let upToLast := (afterBrace.reverse.dropWhile fun c => c != '}').reverse
  if upToLast.isEmpty then none else some (String.mk upToLast)

/-- The tab ids read off a parsed `tabIds` JSON value: the integral,
non-negative numbers of the array (other shapes contribute nothing). -/
def jsonNatList (x : Json) : List Nat :=
  match x with
  | .arr elems =>
    elems.filterMap fun e =>
      match e with
      | .num q => if q.den == 1 && decide (0 ≤ q.num) then some q.num.toNat else none
      | _ => none
  | _ => []

/-- One proposed workspace read off a parsed JSON object. -/
def wsOfJson (x : Json) : Option Workspace :=
  match x with
  | .obj fields =>
    some ⟨(match aget fields "name" with
           | some (.str s) => s
           | _ => ""),
          (match aget fields "tabIds" with
           | some v => jsonNatList v
           | none => [])⟩
  | _ => none

/-- The workspaces read off the parsed response
(`parsed.workspaces || []`, `background.js` lines 420-424). -/
def extractWorkspaces (v : Json) : List Workspace :=
  match v with
  | .obj fields =>
    match aget fields "workspaces" with
    | some (.arr ws) => ws.filterMap wsOfJson
    | _ => []
  | _ => []

/-- The outcome of the Validating step as seen by the message handler:
a workspace list, or a thrown error propagated by the rethrowing catch
(`background.js` lines 416-431). -/
inductive ValidateOutcome where
  | ok (workspaces : List Workspace)
  | err
deriving DecidableEq, Repr

/-- The Validating step of `detectWorkspaces` (`background.js` lines
416-427): no brace-delimited match means `{ workspaces: [] }` (zero
workspaces, not an error); a match is fed to `JSON.parse`, whose failure
throws — the surrounding catch rethrows, so the pipeline errors. -/
def validateResponse (content : String) : ValidateOutcome :=
  match jsonMatch content with
  | none => .ok []
  | some block =>
    match jsonParse block with
    | none => .err
    | some v => .ok (extractWorkspaces v)

theorem dropWhile_head_false {α : Type} (p : α → Bool) (l : List α) (x : α) (xs : List α)
    (h : l.dropWhile p = x :: xs) : p x = false := by
  induction l with
  | nil => simp [List.dropWhile] at h
  | cons hd tl ih =>
    rw [List.dropWhile_cons] at h
    by_cases hp : p hd = true
    · rw [if_pos hp] at h
      exact ih h
    · rw [if_neg hp] at h
      cases h
      simpa using hp

/-- Claim C3, counterexample: the response `{"a": 1} and {"b": 2}` does
contain a valid first brace-delimited JSON block, but the greedy match
spans from the first `{` to the last `}`, the spanned text is not valid
JSON, `JSON.parse` throws and the rethrowing catch turns the run into an
error — not into zero workspaces. -/
theorem claim3_counterexample :
    validateResponse "\x7b\"a\": 1\x7d and \x7b\"b\": 2\x7d" = ValidateOutcome.err
    ∧ (jsonParse "\x7b\"a\": 1\x7d").isSome = true := by
  exact ⟨by decide, rfl⟩

/-- Claim C3, amended: the Validating step extracts the block running
from the first opening brace to the last closing brace of the response
(nothing before it contains `\x7b`, nothing after it contains `\x7d`);
when no such block exists the pipeline returns zero workspaces rather
than an error; when the block exists but is not valid JSON the pipeline
fails with an error; and when it parses, its workspaces are returned. -/
theorem claim3_theorem (content : String) :
    (jsonMatch content = none → validateResponse content = ValidateOutcome.ok [])
    ∧ (∀ block, jsonMatch content = some block →
        ∃ pre post : List Char,
          content.data = pre ++ block.data ++ post
          ∧ (∀ c ∈ pre, c ≠ '{')
          ∧ (∀ c ∈ post, c ≠ '}')
          ∧ block.data.head? = some '{'
          ∧ block.data.getLast? = some '}')
    ∧ (∀ block, jsonMatch content = some block → jsonParse block = none →
        validateResponse content = ValidateOutcome.err)
    ∧ (∀ block v, jsonMatch content = some block → jsonParse block = some v →
        validateResponse content = ValidateOutcome.ok (extractWorkspaces v)) := by
  refine ⟨?_, ?_, ?_, ?_⟩
  · intro h
    unfold validateResponse
    rw [h]
  · intro block hb
    simp only [jsonMatch] at hb
    split at hb
    · exact absurd hb (by simp)
    · rename_i hempty
      obtain rfl : String.mk ((content.data.dropWhile fun c => c != '{').reverse.dropWhile
          (fun c => c != '}')).reverse = block := Option.some.inj hb
      set A := content.data.dropWhile fun c => c != '{' with hA
      set u := (A.reverse.dropWhile fun c => c != '}').reverse with hu
      have hune : u ≠ [] := by
        intro h0
        rw [h0] at hempty
        exact hempty rfl
      have f2 : A.reverse = (A.reverse.takeWhile fun c => c != '}')
          ++ A.reverse.dropWhile fun c => c != '}' :=
        (List.takeWhile_append_dropWhile ..).symm
      have f3 : A = u ++ (A.reverse.takeWhile fun c => c != '}').reverse := by
        have h2 := congrArg List.reverse f2
        rw [List.reverse_reverse, List.reverse_append] at h2
        rw [hu]
        exact h2
      refine ⟨content.data.takeWhile fun c => c != '{',
        (A.reverse.takeWhile fun c => c != '}').reverse, ?_, ?_, ?_, ?_, ?_⟩
      · have f1 : content.data = (content.data.takeWhile fun c => c != '{') ++ A :=
          (List.takeWhile_append_dropWhile ..).symm
        rw [List.append_assoc]
        show content.data = (content.data.takeWhile fun c => c != '{')
          ++ (u ++ (A.reverse.takeWhile fun c => c != '}').reverse)
        rw [← f3]
        exact f1
      · intro c hc
        have := List.mem_takeWhile_imp hc
        simpa using this
      · intro c hc
        rw [List.mem_reverse] at hc
        have := List.mem_takeWhile_imp hc
        simpa using this
      · obtain ⟨x, xs, hx⟩ : ∃ x xs, u = x :: xs := by
          cases hcase : u with
          | nil => exact absurd hcase hune
          | cons x xs => exact ⟨x, xs, rfl⟩
        have hAeq : A = x :: (xs ++ (A.reverse.takeWhile fun c => c != '}').reverse) := by
          rw [← List.cons_append, ← hx]
          exact f3
        have hxbrace := dropWhile_head_false (fun c => c != '{') content.data x _ (hA ▸ hAeq)
        have : x = '{' := by simpa using hxbrace
        simp [hx, this]
      · obtain ⟨y, ys, hy⟩ : ∃ y ys, A.reverse.dropWhile (fun c => c != '}') = y :: ys := by
          cases hcase : A.reverse.dropWhile (fun c => c != '}') with
          | nil =>
            rw [hu, hcase] at hune
            exact absurd rfl hune
          | cons y ys => exact ⟨y, ys, rfl⟩
        have hybrace := dropWhile_head_false (fun c => c != '}') A.reverse y _ hy
        have hyv : y = '}' := by simpa using hybrace
        show u.getLast? = some '}'
        rw [← List.head?_reverse, hu, List.reverse_reverse, hy, hyv]
        rfl
  · intro block hb hp
    unfold validateResponse
    rw [hb]
    show (match jsonParse block with
      | none => ValidateOutcome.err
      | some v => ValidateOutcome.ok (extractWorkspaces v)) = ValidateOutcome.err
    rw [hp]
  · intro block v hb hp
    unfold validateResponse
    rw [hb]
    show (match jsonParse block with
      | none => ValidateOutcome.err
      | some w => ValidateOutcome.ok (extractWorkspaces w)) =
        ValidateOutcome.ok (extractWorkspaces v)
    rw [hp]

/-- Claim C3, witness: a response wrapping one valid workspaces object
in prose yields its workspace list, and a response with no braces at all
yields zero workspaces. -/
theorem claim3_witness :
    validateResponse
        "ok \x7b\"workspaces\": [\x7b\"name\": \"W\", \"tabIds\": [1, 2]\x7d]\x7d done"
      = ValidateOutcome.ok [⟨"W", [1, 2]⟩]
    ∧ validateResponse "no braces here" = ValidateOutcome.ok [] := by
  constructor
  · have h := claim3_theorem
      "ok \x7b\"workspaces\": [\x7b\"name\": \"W\", \"tabIds\": [1, 2]\x7d]\x7d done"
    have h2 := h.2.2.2
      "\x7b\"workspaces\": [\x7b\"name\": \"W\", \"tabIds\": [1, 2]\x7d]\x7d"
      (Json.obj [("workspaces", Json.arr [Json.obj [("name", Json.str "W"),
        ("tabIds", Json.arr [Json.num (mkRat 1 1), Json.num (mkRat 2 1)])]])])
      rfl rfl
    rw [h2]
    rfl
  · have h3 := claim3_theorem "no braces here"
    exact h3.1 rfl

end Stab
